import Mathlib

/-
Verification of the cell-scanner pipeline (src/main.py, src/Detectors.py).

Shallow embedding conventions:
- Numeric detection data (confidence, box coordinates) are modelled as
  rationals; the source works with machine floats, and every constant the
  claims mention (0.25, 0.4, 0.5, 0.7, 512, 224) is used symbolically.
- The neural-network inference calls are opaque external services in the
  spec; they are modelled as oracle parameters: a detector oracle yields
  the list of detections for an image, a classifier oracle yields the list
  of candidate sub-detections for a crop, the density oracle yields the
  top-1 class name.
- Counter (collections.Counter with increment-only updates) is modelled as
  a Multiset of labels; Counter addition is multiset addition, which is
  pointwise addition of counts.
-/

namespace CellScanner

/-- One raw detection as unpacked in the source from r.boxes:
confidence and an xywh box (center x, center y, width, height). -/
structure Detection where
  conf : ℚ
  x : ℚ
  y : ℚ
  w : ℚ
  h : ℚ
deriving DecidableEq, Repr

/-- One classifier candidate sub-detection as built in
WhiteBloodCellDetector.classify: the tuple (x, y, w, h, cls) zipped from
r.boxes.xywh and r.boxes.cls. -/
structure Cand where
  x : ℚ
  y : ℚ
  w : ℚ
  h : ℚ
  cls : ℕ
deriving DecidableEq, Repr

/-- ScanResult from Detectors.py: wbc is a Counter (subtype label to
count), rbc an integer count. -/
structure ScanResult where
  wbc : Multiset String
  rbc : ℕ
deriving DecidableEq

/-- ScanResult() with its defaults: empty Counter, rbc = 0. -/
def ScanResult.empty : ScanResult := ⟨0, 0⟩

/-- The merge performed in process_ndpi:
summary.wbc += result.wbc; summary.rbc += result.rbc. -/
def ScanResult.merge (a b : ScanResult) : ScanResult :=
  ⟨a.wbc + b.wbc, a.rbc + b.rbc⟩

/-! ## WhiteBloodCellDetector constants (its constructor) -/

def WBC_CONFIDENCE_THRESHOLD : ℚ := 0.25

def CLASSIFY_SIZE : ℕ := 224

def DETECTION_SIZE : ℕ := 512

def WBC_SIZE_THRESHOLD : ℚ := 0.5

/-- The acceptance test in WhiteBloodCellDetector.detect:
conf > CONFIDENCE_THRESHOLD and
IMAGE_SIZE_RATIO_THRESHOLD < width / height < 1 / IMAGE_SIZE_RATIO_THRESHOLD. -/
def wbcAccept (d : Detection) : Bool :=
  decide (WBC_CONFIDENCE_THRESHOLD < d.conf) &&
    (decide (WBC_SIZE_THRESHOLD < d.w / d.h) &&
      decide (d.w / d.h < 1 / WBC_SIZE_THRESHOLD))

/-- CLASSIFY_SIZE // 2 (integer division in the source). -/
def classifyHalf : ℕ := CLASSIFY_SIZE / 2

/-- The crop box computed in WhiteBloodCellDetector.classify:
left = max(center_x - CLASSIFY_SIZE // 2, 0),
top = max(center_y - CLASSIFY_SIZE // 2, 0),
right = min(center_x + CLASSIFY_SIZE // 2, DETECTION_SIZE),
bottom = min(center_y + CLASSIFY_SIZE // 2, DETECTION_SIZE),
returned as (left, top, right, bottom). -/
def classifyCropBox (cx cy : ℚ) : ℚ × ℚ × ℚ × ℚ :=
  (max (cx - (classifyHalf : ℚ)) 0,
   max (cy - (classifyHalf : ℚ)) 0,
   min (cx + (classifyHalf : ℚ)) (DETECTION_SIZE : ℚ),
   min (cy + (classifyHalf : ℚ)) (DETECTION_SIZE : ℚ))

/-- The center point used in get_wbc_closest_to_center:
(CLASSIFY_SIZE // 2, CLASSIFY_SIZE // 2). -/
def cropCenter : ℚ × ℚ := ((classifyHalf : ℚ), (classifyHalf : ℚ))

/-- Squared Euclidean distance. The source distance function returns
((p1[0]-p2[0])**2 + (p1[1]-p2[1])**2)**0.5; the square root is strictly
monotone on nonnegative reals, so minimum search and ties over the source
distance coincide with minimum search and ties over this square. The
claim-facing theorems state distances through Real.sqrt of this value. -/
def distSq (p1 p2 : ℚ × ℚ) : ℚ :=
  (p1.1 - p2.1) ^ 2 + (p1.2 - p2.2) ^ 2

/-- Squared distance of a candidate box center to the crop center. -/
def candDistSq (c : Cand) : ℚ := distSq (c.x, c.y) cropCenter

/-- One step of the minimum search over distances: keep the current best
unless the next candidate is strictly closer to the crop center. -/
def closerStep (best d : Cand) : Cand :=
  if candDistSq d < candDistSq best then d else best

/-- get_wbc_closest_to_center: distances.index(min(distances)) picks the
first index attaining the minimal distance, and cords[closest_index] is
returned. Modelled as a left fold that replaces the current best only on a
strictly smaller distance, which keeps the earliest minimum; none on the
empty list (the source only calls it on nonempty lists, guarded by
len(r.boxes) == 0 in classify). -/
def getWbcClosestToCenter (cords : List Cand) : Option Cand :=
  match cords with
  | [] => none
  | c :: cs => some (cs.foldl closerStep c)

/-- The label-producing tail of WhiteBloodCellDetector.classify, given the
classifier oracle output for the crop: zero candidates yield "Unknown",
otherwise the class index of the candidate closest to the crop center is
mapped through the label table names. -/
def classifyLabel (names : ℕ → String) (cands : List Cand) : String :=
  match getWbcClosestToCenter cands with
  | none => "Unknown"
  | some c => names c.cls

/-- The accepted-detection loop of WhiteBloodCellDetector.detect: for each
detection passing wbcAccept, classify it and increment its label count.
The classifier oracle gives, per accepted detection, the candidate list the
classification model returns on its crop. -/
def wbcDetect (names : ℕ → String) (oracle : Detection → List Cand)
    (dets : List Detection) : Multiset String :=
  dets.foldl (fun wbcs d =>
    if wbcAccept d then classifyLabel names (oracle d) ::ₘ wbcs else wbcs) 0

/-! ## RedBloodCellDetector -/

def RBC_CONFIDENCE_THRESHOLD : ℚ := 0.4

def RBC_SIZE_THRESHOLD : ℚ := 0.7

/-- The acceptance test in RedBloodCellDetector.detect:
conf > CONFIDENCE_THRESHOLD and
IMAGE_SIZE_RATIO_THRESHOLD < width / height < 1 / IMAGE_SIZE_RATIO_THRESHOLD. -/
def rbcAccept (d : Detection) : Bool :=
  decide (RBC_CONFIDENCE_THRESHOLD < d.conf) &&
    (decide (RBC_SIZE_THRESHOLD < d.w / d.h) &&
      decide (d.w / d.h < 1 / RBC_SIZE_THRESHOLD))

/-- The counting loop of RedBloodCellDetector.detect: rbc starts at 0 and
is incremented once per accepted detection. -/
def rbcDetect (dets : List Detection) : ℕ :=
  dets.foldl (fun rbc d => if rbcAccept d then rbc + 1 else rbc) 0

/-! ## BloodDensityDetector and process_image -/

/-- BloodDensityDetector.hasGoodDensity: the top-1 class name of the
density model equals "Good". -/
def hasGoodDensity (top1Name : String) : Bool := top1Name == "Good"

/-- process_image from main.py, with the three inference services as
oracles: the density gate is computed, but the skip branch is guarded by
`and False` in the source, so it is never taken; otherwise the result is
built from the two detector outputs. -/
def processImage (densityTop1 : String) (names : ℕ → String)
    (wbcOracle : Detection → List Cand) (wbcDets : List Detection)
    (rbcDets : List Detection) : ScanResult :=
  if !hasGoodDensity densityTop1 && false then ⟨0, 0⟩
  else ⟨wbcDetect names wbcOracle wbcDets, rbcDetect rbcDets⟩

/-! ## process_ndpi tiling and aggregation -/

/-- range(0, extent, 512): the multiples of 512 strictly below extent. -/
def strideList (extent : ℕ) : List ℕ :=
  (List.range ((extent + 511) / 512)).map (fun i => i * 512)

/-- The crop boxes passed to ndpi.crop in process_ndpi, in loop order:
for height in range(0, ndpiHeight, 512), for width in range(0, ndpiWidth, 512),
the box (height, width, height + 512, width + 512). PIL interprets a crop
box as (left, upper, right, lower), so the first component is the x
coordinate of the left edge and the second the y coordinate of the top. -/
def cropBoxes (ndpiWidth ndpiHeight : ℕ) : List (ℕ × ℕ × ℕ × ℕ) :=
  (strideList ndpiHeight).flatMap (fun height =>
    (strideList ndpiWidth).map (fun width =>
      (height, width, height + 512, width + 512)))

/-- Tile boxes as claim C1 words them, for comparison with cropBoxes: for
each (row, column) origin with rows stepping 0 to the height and columns
stepping 0 to the width by 512, the 512 by 512 region at that origin
clamped at the slide edges, as a PIL-style (left, upper, right, lower) box. -/
def specTileBoxes (ndpiWidth ndpiHeight : ℕ) : List (ℕ × ℕ × ℕ × ℕ) :=
  (strideList ndpiHeight).flatMap (fun row =>
    (strideList ndpiWidth).map (fun col =>
      (col, row, min (col + 512) ndpiWidth, min (row + 512) ndpiHeight)))

/-- process_ndpi from main.py. The validity test is the source guard
not os.path.isfile(ndpiFile) or not ndpiFile.endswith(".ndpi"), with file
existence as a Boolean input; on failure it prints "Invalid NDPI file" and
returns ScanResult(). Otherwise each crop box is processed (the per-tile
ScanResult is an oracle over the box, standing for process_image on the
cropped tile) and folded into the running summary by the merge of claim C4.
The returned pair is (summary, printed messages). -/
def processNdpi (isFile : Bool) (ndpiFile : String)
    (ndpiWidth ndpiHeight : ℕ)
    (tileResult : ℕ × ℕ × ℕ × ℕ → ScanResult) : ScanResult × List String :=
  if !isFile || !(ndpiFile.endsWith ".ndpi") then
    (ScanResult.empty, ["Invalid NDPI file"])
  else
    ((cropBoxes ndpiWidth ndpiHeight).foldl
        (fun summary box => summary.merge (tileResult box)) ScanResult.empty,
     ["Reading NDPI Scan (approx. 15 seconds)",
      "Done reading, start processing NDPI Scan",
      "Processing row by row, column by column (approx. 5 minutes on GPU)"])

/-! ## Theorems -/

/-- Claim C1 (code bug): process_ndpi passes the height-loop value as the
first crop coordinate, which PIL reads as the x (left) edge, so the x axis
is stepped over the height extent and the y axis over the width extent. On
the non-square 1024 wide by 512 high slide the produced boxes are
(0,0,512,512) and (0,512,512,1024); the second starts at y = 512, at the
slide height, so it lies wholly outside the slide (PIL pads such a crop
rather than clamps), and the slide half x in [512,1024) is never cropped —
unlike the tiling the claim describes (specTileBoxes). On a square
1024 by 1024 slide the four origins (0,0),(0,512),(512,0),(512,512) do
appear exactly as the claim says. -/
theorem tiling_swaps_axes_on_nonsquare_slide :
    cropBoxes 1024 512 = [(0, 0, 512, 512), (0, 512, 512, 1024)] ∧
    (∃ b ∈ cropBoxes 1024 512, 512 ≤ b.2.1) ∧
    cropBoxes 1024 512 ≠ specTileBoxes 1024 512 ∧
    (∀ b ∈ cropBoxes 1024 512, b.1 < 512) ∧
    (cropBoxes 1024 1024).map (fun b => (b.1, b.2.1)) =
      [(0, 0), (0, 512), (512, 0), (512, 512)] := by
  refine ⟨by decide, by decide, by decide, by decide, by decide⟩

/-- Claim C4: the ScanResult merge of process_ndpi (pointwise sum of wbc
counts, summed rbc) is commutative and associative, and the empty
ScanResult is a left and right identity. -/
theorem merge_comm_assoc_identity (a b c : ScanResult) :
    a.merge b = b.merge a ∧
    (a.merge b).merge c = a.merge (b.merge c) ∧
    a.merge ScanResult.empty = a ∧
    ScanResult.empty.merge a = a := by
  obtain ⟨aw, ar⟩ := a
  obtain ⟨bw, br⟩ := b
  obtain ⟨cw, cr⟩ := c
  refine ⟨?_, ?_, ?_, ?_⟩ <;>
    simp [ScanResult.merge, ScanResult.empty, ScanResult.mk.injEq,
      add_comm, add_assoc, add_left_comm]

/-- Claim C9: process_image returns the ScanResult built from the two
detector outputs for every value of the density gate; the skip branch is
guarded by `and False` and is never taken. -/
theorem density_gate_never_skips (densityTop1 : String) (names : ℕ → String)
    (wbcOracle : Detection → List Cand) (wbcDets rbcDets : List Detection) :
    processImage densityTop1 names wbcOracle wbcDets rbcDets =
      ⟨wbcDetect names wbcOracle wbcDets, rbcDetect rbcDets⟩ := by
  simp [processImage]

/-- The white-cell detect loop counts one classification per accepted
detection, starting from any accumulator. -/
lemma wbcDetect_foldl_card (names : ℕ → String) (oracle : Detection → List Cand)
    (dets : List Detection) (acc : Multiset String) :
    Multiset.card (dets.foldl (fun wbcs d =>
        if wbcAccept d then classifyLabel names (oracle d) ::ₘ wbcs else wbcs) acc)
      = Multiset.card acc + (dets.filter (fun d => wbcAccept d)).length := by
  induction dets generalizing acc with
  | nil => simp
  | cons d ds ih =>
      by_cases hd : wbcAccept d
      · simp [hd, ih, List.filter_cons]
        omega
      · simp [hd, ih, List.filter_cons]

/-- Claim C2: a white-cell detection is accepted and passed to
classification iff its confidence is strictly above 0.25 and its
width/height value is strictly inside (0.5, 2); the boundary values
(confidence exactly 0.25, width/height exactly 0.5 or 2) are rejected; the
count of classified detections equals the number of accepted ones, the
rejected ones contributing nothing (discarded without error). -/
theorem wbc_accept_filter_spec :
    (∀ d : Detection,
        wbcAccept d = true ↔ (0.25 < d.conf ∧ 0.5 < d.w / d.h ∧ d.w / d.h < 2)) ∧
    (∀ (names : ℕ → String) (oracle : Detection → List Cand)
        (dets : List Detection),
        Multiset.card (wbcDetect names oracle dets)
          = (dets.filter (fun d => wbcAccept d)).length) ∧
    wbcAccept ⟨0.25, 0, 0, 10, 10⟩ = false ∧
    wbcAccept ⟨0.26, 0, 0, 10, 10⟩ = true ∧
    wbcAccept ⟨0.9, 0, 0, 1, 2⟩ = false ∧
    wbcAccept ⟨0.9, 0, 0, 2, 1⟩ = false := by
  refine ⟨?_, ?_, ?_, ?_, ?_, ?_⟩
  · intro d
    norm_num [wbcAccept, WBC_CONFIDENCE_THRESHOLD, WBC_SIZE_THRESHOLD]
  · intro names oracle dets
    simpa using wbcDetect_foldl_card names oracle dets 0
  all_goals norm_num [wbcAccept, WBC_CONFIDENCE_THRESHOLD, WBC_SIZE_THRESHOLD]

/-- The red-cell detect loop adds to any accumulator one per accepted
detection. -/
lemma rbcDetect_foldl (dets : List Detection) (acc : ℕ) :
    dets.foldl (fun rbc d => if rbcAccept d then rbc + 1 else rbc) acc
      = acc + (dets.filter (fun d => rbcAccept d)).length := by
  induction dets generalizing acc with
  | nil => simp
  | cons d ds ih =>
      by_cases hd : rbcAccept d
      · simp [hd, ih, List.filter_cons]
        omega
      · simp [hd, ih, List.filter_cons]

/-- Claim C3: RedBloodCellDetector.detect returns exactly the number of
detections with confidence strictly above 0.4 and width/height strictly
inside (0.7, 1/0.7); in particular the detection with confidence 0.5,
width 5 and height 20 (width/height 0.25) is rejected and the count stays
at 0. -/
theorem rbc_count_filter_spec :
    (∀ dets : List Detection,
        rbcDetect dets = (dets.filter (fun d => rbcAccept d)).length) ∧
    (∀ d : Detection,
        rbcAccept d = true ↔
          (0.4 < d.conf ∧ 0.7 < d.w / d.h ∧ d.w / d.h < 1 / 0.7)) ∧
    rbcAccept ⟨0.5, 0, 0, 5, 20⟩ = false ∧
    rbcDetect [⟨0.5, 0, 0, 5, 20⟩] = 0 := by
  refine ⟨?_, ?_, ?_, ?_⟩
  · intro dets
    simpa using rbcDetect_foldl dets 0
  · intro d
    norm_num [rbcAccept, RBC_CONFIDENCE_THRESHOLD, RBC_SIZE_THRESHOLD]
  · norm_num [rbcAccept, RBC_CONFIDENCE_THRESHOLD, RBC_SIZE_THRESHOLD]
  · norm_num [rbcDetect, rbcAccept, RBC_CONFIDENCE_THRESHOLD,
      RBC_SIZE_THRESHOLD]

/-- Claim C8: when the slide file is missing (isFile = false) or does not
end in ".ndpi", process_ndpi prints the diagnostic "Invalid NDPI file" and
returns the empty ScanResult, raising no exception (the function is total
and takes the early-return branch). -/
theorem invalid_input_soft_fail (isFile : Bool) (ndpiFile : String)
    (ndpiWidth ndpiHeight : ℕ) (tileResult : ℕ × ℕ × ℕ × ℕ → ScanResult)
    (h : isFile = false ∨ ndpiFile.endsWith ".ndpi" = false) :
    processNdpi isFile ndpiFile ndpiWidth ndpiHeight tileResult
      = (ScanResult.empty, ["Invalid NDPI file"]) := by
  rcases h with h | h <;> simp [processNdpi, h]

/-- Witness for claim C8 at a concrete missing file. -/
theorem invalid_input_soft_fail_witness :
    processNdpi false "missing.ndpi" 1024 1024 (fun _ => ScanResult.empty)
      = (ScanResult.empty, ["Invalid NDPI file"]) :=
  invalid_input_soft_fail false "missing.ndpi" 1024 1024
    (fun _ => ScanResult.empty) (Or.inl rfl)

/-- Claim C5: for a detection center (cx, cy) inside [0, 512) on both
axes, the classification crop box (left, top, right, bottom) of
WhiteBloodCellDetector.classify has left and top at least 0, right and
bottom at most 512, and is well formed (left at most right, top at most
bottom); and an accepted detection is always classified — it contributes
exactly one label to the detect output — so a clamped crop smaller than
224 by 224 causes no error and no rejection. -/
theorem classify_crop_clamped (cx cy : ℚ) (names : ℕ → String)
    (oracle : Detection → List Cand) (d : Detection)
    (h0 : 0 ≤ cx) (h1 : cx < 512) (h2 : 0 ≤ cy) (h3 : cy < 512)
    (hacc : wbcAccept d = true) :
    0 ≤ (classifyCropBox cx cy).1 ∧
    0 ≤ (classifyCropBox cx cy).2.1 ∧
    (classifyCropBox cx cy).2.2.1 ≤ 512 ∧
    (classifyCropBox cx cy).2.2.2 ≤ 512 ∧
    (classifyCropBox cx cy).1 ≤ (classifyCropBox cx cy).2.2.1 ∧
    (classifyCropBox cx cy).2.1 ≤ (classifyCropBox cx cy).2.2.2 ∧
    Multiset.card (wbcDetect names oracle [d]) = 1 := by
  have e : classifyCropBox cx cy
      = (max (cx - 112) 0, max (cy - 112) 0,
         min (cx + 112) 512, min (cy + 112) 512) := by
    norm_num [classifyCropBox, classifyHalf, CLASSIFY_SIZE, DETECTION_SIZE]
  rw [e]
  refine ⟨le_max_right _ _, le_max_right _ _, min_le_right _ _,
    min_le_right _ _, ?_, ?_, ?_⟩
  · exact max_le (le_min (by linarith) (by linarith))
      (le_min (by linarith) (by norm_num))
  · exact max_le (le_min (by linarith) (by linarith))
      (le_min (by linarith) (by norm_num))
  · simp [wbcDetect, hacc]

/-- Witness for claim C5: a detection centered at (1, 500), 1 unit from the
left edge and 12 from the bottom, whose clamped crop is 113 by 124. -/
theorem classify_crop_clamped_witness :
    0 ≤ (classifyCropBox 1 500).1 ∧
    0 ≤ (classifyCropBox 1 500).2.1 ∧
    (classifyCropBox 1 500).2.2.1 ≤ 512 ∧
    (classifyCropBox 1 500).2.2.2 ≤ 512 ∧
    (classifyCropBox 1 500).1 ≤ (classifyCropBox 1 500).2.2.1 ∧
    (classifyCropBox 1 500).2.1 ≤ (classifyCropBox 1 500).2.2.2 ∧
    Multiset.card (wbcDetect (fun _ => "Neutrophil") (fun _ => [])
      [⟨0.9, 1, 500, 10, 10⟩]) = 1 :=
  classify_crop_clamped 1 500 (fun _ => "Neutrophil") (fun _ => [])
    ⟨0.9, 1, 500, 10, 10⟩ (by norm_num) (by norm_num) (by norm_num)
    (by norm_num)
    (by norm_num [wbcAccept, WBC_CONFIDENCE_THRESHOLD, WBC_SIZE_THRESHOLD])

/-- Claim C7: when the classifier returns zero candidates for an accepted
detection, classify returns the label "Unknown", and in the detect loop
that detection increments the "Unknown" count of the result by exactly 1;
no error is raised (the functions are total). -/
theorem zero_candidates_unknown (names : ℕ → String)
    (oracle : Detection → List Cand) (d : Detection) (dets : List Detection)
    (hz : oracle d = []) (hacc : wbcAccept d = true) :
    classifyLabel names (oracle d) = "Unknown" ∧
    (wbcDetect names oracle (dets ++ [d])).count "Unknown"
      = (wbcDetect names oracle dets).count "Unknown" + 1 := by
  have hlab : classifyLabel names (oracle d) = "Unknown" := by
    rw [hz]
    rfl
  refine ⟨hlab, ?_⟩
  unfold wbcDetect
  rw [List.foldl_append]
  simp [hacc, hlab]

/-- Witness for claim C7: one accepted detection for which the classifier
oracle returns no candidates. -/
theorem zero_candidates_unknown_witness :
    classifyLabel (fun _ => "Band") ([] : List Cand) = "Unknown" ∧
    (wbcDetect (fun _ => "Band") (fun _ => [])
        ([] ++ [⟨0.9, 100, 100, 10, 10⟩])).count "Unknown"
      = (wbcDetect (fun _ => "Band") (fun _ => [])
          ([] : List Detection)).count "Unknown" + 1 :=
  zero_candidates_unknown (fun _ => "Band") (fun _ => [])
    ⟨0.9, 100, 100, 10, 10⟩ [] rfl
    (by norm_num [wbcAccept, WBC_CONFIDENCE_THRESHOLD, WBC_SIZE_THRESHOLD])

/-- The squared distance to the crop center is nonnegative. -/
lemma candDistSq_nonneg (c : Cand) : 0 ≤ candDistSq c := by
  unfold candDistSq distSq
  positivity

/-- Invariant of the minimum search fold: the result is either the initial
best, closer-or-equal to everything in the list, or the first element of
the list strictly closer than the initial best and than every element
before it, and closer-or-equal to every element of the list. -/
lemma foldl_closerStep_spec (acc : Cand) (l : List Cand) :
    (l.foldl closerStep acc = acc ∧
      ∀ y ∈ l, candDistSq acc ≤ candDistSq y) ∨
    (∃ i : ℕ, l[i]? = some (l.foldl closerStep acc) ∧
      candDistSq (l.foldl closerStep acc) < candDistSq acc ∧
      (∀ j : ℕ, j < i → ∀ z, l[j]? = some z →
        candDistSq (l.foldl closerStep acc) < candDistSq z) ∧
      (∀ y ∈ l, candDistSq (l.foldl closerStep acc) ≤ candDistSq y)) := by
  induction l generalizing acc with
  | nil =>
      left
      exact ⟨rfl, by simp⟩
  | cons d ds ih =>
      rw [List.foldl_cons]
      by_cases hd : candDistSq d < candDistSq acc
      · have hstep : closerStep acc d = d := by
          simp [closerStep, hd]
        rw [hstep]
        rcases ih d with ⟨heq, hmin⟩ | ⟨i, hget, hlt, hfirst, hmin⟩
        · right
          refine ⟨0, by simp [heq], by rw [heq]; exact hd, ?_, ?_⟩
          · intro j hj z hz
            omega
          · intro y hy
            rcases List.mem_cons.mp hy with rfl | hy'
            · simp [heq]
            · rw [heq]
              exact hmin y hy'
        · right
          refine ⟨i + 1, by simpa using hget, lt_trans hlt hd, ?_, ?_⟩
          · intro j hj z hz
            cases j with
            | zero =>
                simp only [List.getElem?_cons_zero, Option.some.injEq] at hz
                subst hz
                exact hlt
            | succ j' =>
                exact hfirst j' (by omega) z (by simpa using hz)
          · intro y hy
            rcases List.mem_cons.mp hy with rfl | hy'
            · exact le_of_lt hlt
            · exact hmin y hy'
      · have hstep : closerStep acc d = acc := by
          simp [closerStep, hd]
        rw [hstep]
        push_neg at hd
        rcases ih acc with ⟨heq, hmin⟩ | ⟨i, hget, hlt, hfirst, hmin⟩
        · left
          refine ⟨heq, ?_⟩
          intro y hy
          rcases List.mem_cons.mp hy with rfl | hy'
          · exact hd
          · exact hmin y hy'
        · right
          refine ⟨i + 1, by simpa using hget, hlt, ?_, ?_⟩
          · intro j hj z hz
            cases j with
            | zero =>
                simp only [List.getElem?_cons_zero, Option.some.injEq] at hz
                subst hz
                exact lt_of_lt_of_le hlt hd
            | succ j' =>
                exact hfirst j' (by omega) z (by simpa using hz)
          · intro y hy
            rcases List.mem_cons.mp hy with rfl | hy'
            · exact le_trans (le_of_lt hlt) hd
            · exact hmin y hy'

/-- Claim C6: on every nonempty candidate list,
get_wbc_closest_to_center returns a candidate of the list whose box center
has minimal Euclidean distance to the crop center (112, 112), and that
candidate sits at an index before which every candidate is strictly
farther — so among candidates at equal minimal distance the first in input
order is selected. Distances appear as the real square root of the
rational squared distance, exactly the value the source distance function
computes. -/
theorem closest_to_center_first_min (cords : List Cand) (hne : cords ≠ []) :
    ∃ x, getWbcClosestToCenter cords = some x ∧ x ∈ cords ∧
      (∀ y ∈ cords,
        Real.sqrt ((candDistSq x : ℚ) : ℝ) ≤ Real.sqrt ((candDistSq y : ℚ) : ℝ)) ∧
      ∃ i : ℕ, cords[i]? = some x ∧
        ∀ j : ℕ, j < i → ∀ z, cords[j]? = some z →
          Real.sqrt ((candDistSq x : ℚ) : ℝ) < Real.sqrt ((candDistSq z : ℚ) : ℝ) := by
  have sqrt_mono : ∀ a b : Cand, candDistSq a ≤ candDistSq b →
      Real.sqrt ((candDistSq a : ℚ) : ℝ) ≤ Real.sqrt ((candDistSq b : ℚ) : ℝ) := by
    intro a b h
    exact Real.sqrt_le_sqrt (by exact_mod_cast h)
  have sqrt_strict : ∀ a b : Cand, candDistSq a < candDistSq b →
      Real.sqrt ((candDistSq a : ℚ) : ℝ) < Real.sqrt ((candDistSq b : ℚ) : ℝ) := by
    intro a b h
    refine Real.sqrt_lt_sqrt ?_ (by exact_mod_cast h)
    exact_mod_cast candDistSq_nonneg a
  cases cords with
  | nil => exact absurd rfl hne
  | cons c cs =>
      have hval : getWbcClosestToCenter (c :: cs) = some (cs.foldl closerStep c) :=
        rfl
      rcases foldl_closerStep_spec c cs with ⟨heq, hmin⟩ | ⟨i, hget, hlt, hfirst, hmin⟩
      · refine ⟨c, by rw [hval, heq], List.mem_cons_self c cs, ?_, 0, by simp, ?_⟩
        · intro y hy
          rcases List.mem_cons.mp hy with rfl | hy'
          · exact le_refl _
          · exact sqrt_mono c y (hmin y hy')
        · intro j hj z hz
          omega
      · refine ⟨cs.foldl closerStep c, hval, ?_, ?_, i + 1, by simpa using hget, ?_⟩
        · exact List.mem_cons_of_mem c (List.getElem?_mem hget)
        · intro y hy
          rcases List.mem_cons.mp hy with rfl | hy'
          · exact sqrt_mono _ y (le_of_lt hlt)
          · exact sqrt_mono _ y (hmin y hy')
        · intro j hj z hz
          cases j with
          | zero =>
              simp only [List.getElem?_cons_zero, Option.some.injEq] at hz
              subst hz
              exact sqrt_strict _ _ hlt
          | succ j' =>
              exact sqrt_strict _ _ (hfirst j' (by omega) z (by simpa using hz))

/-- Witness for claim C6: two candidates both at squared distance 144 from
the crop center (112, 112); the selection falls on a member of the list at
an index before which every candidate is strictly farther, which for this
tie forces the first candidate. -/
theorem closest_to_center_first_min_witness :
    ∃ x, getWbcClosestToCenter [⟨100, 112, 20, 20, 0⟩, ⟨124, 112, 20, 20, 1⟩]
        = some x ∧
      x ∈ [⟨100, 112, 20, 20, 0⟩, ⟨124, 112, 20, 20, 1⟩] ∧
      (∀ y ∈ [⟨100, 112, 20, 20, 0⟩, ⟨124, 112, 20, 20, 1⟩],
        Real.sqrt ((candDistSq x : ℚ) : ℝ) ≤ Real.sqrt ((candDistSq y : ℚ) : ℝ)) ∧
      ∃ i : ℕ, [⟨100, 112, 20, 20, 0⟩, ⟨124, 112, 20, 20, 1⟩][i]? = some x ∧
        ∀ j : ℕ, j < i → ∀ z,
          [⟨100, 112, 20, 20, 0⟩, ⟨124, 112, 20, 20, 1⟩][j]? = some z →
            Real.sqrt ((candDistSq x : ℚ) : ℝ) < Real.sqrt ((candDistSq z : ℚ) : ℝ) :=
  closest_to_center_first_min
    [⟨100, 112, 20, 20, 0⟩, ⟨124, 112, 20, 20, 1⟩] (List.cons_ne_nil _ _)

end CellScanner
